import Mathlib

/-!
Shallow embedding of the CHIP-8 interpreter in src/src/emu.rs (rite-emu).

Machine integers are modelled as Nat with explicit reductions modulo
powers of two where the Rust code truncates (u8 and u16 casts, shifts).
Rust Vec indexing that can panic at runtime is modelled with Option
(none = panic); register-file indices coming from opcode nibbles are
always below 16, so those accesses use getD with an unreachable default.
Fallible operations return Except EmulationError Unit together with the
mutated state, matching the Rust methods that mutate through a mutable
reference and return a Result.
-/

namespace RiteEmu

/-- The four error kinds of emu.rs. -/
inductive EmulationError where
  | StackOverflow
  | LoadingError
  | VacantMemory
  | UnknownInstruction
deriving DecidableEq, Repr

/-- The Emu struct of emu.rs: framebuffer, call stack, memory, program
counter, index register, the two timers, the 16 variable registers and
the 16 key flags. The source names the register file field after the
word variable, which is reserved in Lean, so that field is regs here. -/
structure Emu where
  pixels : List Bool
  the_stack : List Nat
  memory : List Nat
  pc : Nat
  i : Nat
  delay_timer : Nat
  sound_timer : Nat
  regs : List Nat
  keys : List Bool
deriving DecidableEq, Repr

/-- The 80-byte font table written by Emu::new. -/
def fonts : List Nat :=
  [0xF0, 0x90, 0x90, 0x90, 0xF0,
   0x20, 0x60, 0x20, 0x20, 0x70,
   0xF0, 0x10, 0xF0, 0x80, 0xF0,
   0xF0, 0x10, 0xF0, 0x10, 0xF0,
   0x90, 0x90, 0xF0, 0x10, 0x10,
   0xF0, 0x80, 0xF0, 0x10, 0xF0,
   0xF0, 0x80, 0xF0, 0x90, 0xF0,
   0xF0, 0x10, 0x20, 0x40, 0x40,
   0xF0, 0x90, 0xF0, 0x90, 0xF0,
   0xF0, 0x90, 0xF0, 0x10, 0xF0,
   0xF0, 0x90, 0xF0, 0x90, 0x90,
   0xE0, 0x90, 0xE0, 0x90, 0xE0,
   0xF0, 0x80, 0x80, 0x80, 0xF0,
   0xE0, 0x90, 0x90, 0x90, 0xE0,
   0xF0, 0x80, 0xF0, 0x80, 0xF0,
   0xF0, 0x80, 0xF0, 0x80, 0x80]

/-- Emu::new. The Rust font loop runs i over 0x050..0x09F, which is
79 indices, so only the first 79 of the 80 font bytes are written. -/
def Emu.new : Emu :=
  { pixels := List.replicate (64 * 32) false
    the_stack := []
    memory :=
      (List.range 79).foldl
        (fun mem k => mem.set (0x50 + k) (fonts.getD k 0))
        (List.replicate 4096 0)
    pc := 0x200
    i := 0
    delay_timer := 0
    sound_timer := 0
    regs := List.replicate 16 0
    keys := List.replicate 16 false }

/-- The loop body of Emu::read_rom: walk the ROM bytes, writing each to
the current address, failing with LoadingError once the address reaches
4096. Writes made before the failure persist (they went through
a mutable reference in the source). -/
def read_rom_loop : List Nat → Nat → List Nat → List Nat × Except EmulationError Unit
  | [], _, mem => (mem, Except.ok ())
  | d :: rest, addr, mem =>
    if addr ≥ 4096 then (mem, Except.error EmulationError.LoadingError)
    else read_rom_loop rest (addr + 1) (mem.set addr d)

/-- Emu::read_rom: copy the ROM into memory starting at 0x200. -/
def read_rom (m : Emu) (rom : List Nat) : Emu × Except EmulationError Unit :=
  let r := read_rom_loop rom 0x200 m.memory
  ({ m with memory := r.1 }, r.2)

/-- Emu::stack_push: push first, then report StackOverflow if the stack
now holds more than 16 entries. The pushed entry is not removed in the
error case. -/
def stack_push (m : Emu) (entry : Nat) : Emu × Except EmulationError Unit :=
  let m1 : Emu := { m with the_stack := m.the_stack ++ [entry] }
  if m1.the_stack.length > 16 then (m1, Except.error EmulationError.StackOverflow)
  else (m1, Except.ok ())

/-- Emu::stack_pop: pop the last entry, or yield the fallback value 0
when the stack is empty. -/
def stack_pop (m : Emu) : Emu × Nat :=
  match m.the_stack.getLast? with
  | some v => ({ m with the_stack := m.the_stack.dropLast }, v)
  | none => (m, 0)

/-- Emu::decrement_delay: decrement the delay timer unless it is 0. -/
def decrement_delay (m : Emu) : Emu :=
  if m.delay_timer > 0 then { m with delay_timer := m.delay_timer - 1 } else m

/-- Emu::decrement_sound: decrement the sound timer unless it is 0. -/
def decrement_sound (m : Emu) : Emu :=
  if m.sound_timer > 0 then { m with sound_timer := m.sound_timer - 1 } else m

/-- Emu::fetch_instruction: read two consecutive bytes at pc, combining
big-endian; pc is incremented (as a u16) after each byte read. The
memory indexing panics (none) when pc is out of bounds. -/
def fetch_instruction (m : Emu) : Option (Emu × Nat) :=
  match m.memory.get? m.pc with
  | none => none
  | some upper =>
    let m1 : Emu := { m with pc := (m.pc + 1) % 65536 }
    match m1.memory.get? m1.pc with
    | none => none
    | some lower =>
      some ({ m1 with pc := (m1.pc + 1) % 65536 }, upper * 256 + lower)

/-- Emu::extract_from_opcode: the six decoded fields
(instr_type, x, y, n, nn, nnn). -/
def extract_from_opcode (opcode : Nat) : Nat × Nat × Nat × Nat × Nat × Nat :=
  (opcode >>> 12, (opcode >>> 8) &&& 0b1111, (opcode >>> 4) &&& 0b1111,
   opcode &&& 0b1111, opcode &&& 0xFF, opcode &&& 0xFFF)

/-- 00E0: clear the framebuffer. -/
def clear_screen (m : Emu) : Emu :=
  { m with pixels := List.replicate (64 * 32) false }

/-- 1NNN: jump. -/
def jump (m : Emu) (nnn : Nat) : Emu :=
  { m with pc := nnn }

/-- 6XNN: set register X to NN (truncated to a byte by the u8 cast). -/
def set_register (m : Emu) (x nn : Nat) : Emu :=
  { m with regs := m.regs.set x (nn % 256) }

/-- 7XNN: add NN to register X with explicit wraparound at 256, exactly
as the source does with its u16 temporary. -/
def add_val_to_register (m : Emu) (x nn : Nat) : Emu :=
  let temp := m.regs.getD x 0 + nn
  let temp1 := if temp > 255 then temp - 256 else temp
  { m with regs := m.regs.set x (temp1 % 256) }

/-- ANNN: set the index register. -/
def set_index_register (m : Emu) (nnn : Nat) : Emu :=
  { m with i := nnn }

/-- 2NNN: push the current pc, then jump to NNN; the push error
propagates with the mutated state. -/
def call_subroutine (m : Emu) (nnn : Nat) : Emu × Except EmulationError Unit :=
  match stack_push m m.pc with
  | (m1, Except.error e) => (m1, Except.error e)
  | (m1, Except.ok _) => ({ m1 with pc := nnn }, Except.ok ())

/-- 00EE: set pc to the popped stack value (0 on an empty stack). -/
def return_from_subroutine (m : Emu) : Emu :=
  let r := stack_pop m
  { r.1 with pc := r.2 }

/-- 3XNN: skip (pc += 2, a u16 addition) if register X equals NN as u8. -/
def skip_if_vx_eq_nn (m : Emu) (x nn : Nat) : Emu :=
  if m.regs.getD x 0 = nn % 256 then { m with pc := (m.pc + 2) % 65536 } else m

/-- 4XNN: skip if register X does not equal NN as u8. -/
def skip_if_vx_neq_nn (m : Emu) (x nn : Nat) : Emu :=
  if m.regs.getD x 0 ≠ nn % 256 then { m with pc := (m.pc + 2) % 65536 } else m

/-- 5XY0: skip if register X equals register Y. -/
def skip_if_vx_eq_vy (m : Emu) (x y : Nat) : Emu :=
  if m.regs.getD x 0 = m.regs.getD y 0 then { m with pc := (m.pc + 2) % 65536 } else m

/-- 9XY0: skip if register X does not equal register Y. -/
def skip_if_vx_neq_vy (m : Emu) (x y : Nat) : Emu :=
  if m.regs.getD x 0 ≠ m.regs.getD y 0 then { m with pc := (m.pc + 2) % 65536 } else m

/-- 8XY0. -/
def set_vx_to_vy (m : Emu) (x y : Nat) : Emu :=
  { m with regs := m.regs.set x (m.regs.getD y 0) }

/-- 8XY1. -/
def vx_oreq_vy (m : Emu) (x y : Nat) : Emu :=
  { m with regs := m.regs.set x (m.regs.getD x 0 ||| m.regs.getD y 0) }

/-- 8XY2. -/
def vx_andeq_vy (m : Emu) (x y : Nat) : Emu :=
  { m with regs := m.regs.set x (m.regs.getD x 0 &&& m.regs.getD y 0) }

/-- 8XY3. -/
def vx_xoreq_vy (m : Emu) (x y : Nat) : Emu :=
  { m with regs := m.regs.set x (m.regs.getD x 0 ^^^ m.regs.getD y 0) }

/-- 8XY4: the source zeroes the flag register FIRST, then reads the two
operands, sets the flag on overflow, and stores the wrapped sum into
register X LAST (so a flag value already written is overwritten when
X = 0xF, and the operand read of register 0xF sees 0). -/
def vx_pluseq_vy (m : Emu) (x y : Nat) : Emu :=
  let vars := m.regs.set 0xf 0
  let result := vars.getD x 0 + vars.getD y 0
  let r1 := if result ≥ 256 then (result - 256, vars.set 0xf 1) else (result, vars)
  { m with regs := r1.2.set x (r1.1 % 256) }

/-- 8XY5: the source sets the flag register to 1 first, then reads the
operands (as i16) and subtracts, adding 256 and clearing the flag on
underflow, storing into register X last. -/
def vx_minuseq_vy (m : Emu) (x y : Nat) : Emu :=
  let vars := m.regs.set 0xf 1
  let xv := vars.getD x 0
  let yv := vars.getD y 0
  let r1 := if xv < yv then (xv + 256 - yv, vars.set 0xf 0) else (xv - yv, vars)
  { m with regs := r1.2.set x (r1.1 % 256) }

/-- 8XY7: like 8XY5 with the operands exchanged. -/
def vx_equals_vy_minus_vx (m : Emu) (x y : Nat) : Emu :=
  let vars := m.regs.set 0xf 1
  let xv := vars.getD x 0
  let yv := vars.getD y 0
  let r1 := if yv < xv then (yv + 256 - xv, vars.set 0xf 0) else (yv - xv, vars)
  { m with regs := r1.2.set x (r1.1 % 256) }

/-- 8XYE (shift_left_1bit in the source): the flag test in the source is
to_shift & 0xF0 != 0, i.e. ANY of bits 4..7, not just bit 7; the flag is
written before register X receives the shifted value (a u8 shift, hence
the reduction modulo 256). Register Y is not consulted. -/
def shift_left_1bit (m : Emu) (x _y : Nat) : Emu :=
  let to_shift := m.regs.getD x 0
  let vars :=
    if to_shift &&& 0xf0 ≠ 0 then m.regs.set 0xf 1 else m.regs.set 0xf 0
  { m with regs := vars.set x ((to_shift <<< 1) % 256) }

/-- 8XY6 (shift_right_1bit in the source): flag is bit 0, then shift. -/
def shift_right_1bit (m : Emu) (x _y : Nat) : Emu :=
  let to_shift := m.regs.getD x 0
  let vars :=
    if to_shift &&& 0x1 ≠ 0 then m.regs.set 0xf 1 else m.regs.set 0xf 0
  { m with regs := vars.set x (to_shift >>> 1) }

/-- BNNN: pc = NNN + register 0 (a u16 addition). -/
def jump_with_offset (m : Emu) (nnn : Nat) : Emu :=
  { m with pc := (nnn + m.regs.getD 0 0) % 65536 }

/-- CXNN: the random byte drawn from the thread RNG is modelled as the
extra argument rnd (reduced to a byte); the source ANDs it with NN. -/
def random_gen (m : Emu) (x nn rnd : Nat) : Emu :=
  { m with regs := m.regs.set x ((rnd % 256) &&& (nn % 256)) }

/-- EX9E: the source indexes keys with the raw value of register X with
no bounds check; an index at or above 16 panics (none). -/
def skip_if_key (m : Emu) (x : Nat) : Option Emu :=
  let key_pos := m.regs.getD x 0
  match m.keys.get? key_pos with
  | none => none
  | some true => some { m with pc := (m.pc + 2) % 65536 }
  | some false => some m

/-- EXA1: as EX9E with the key test negated, same unchecked indexing. -/
def skip_if_not_key (m : Emu) (x : Nat) : Option Emu :=
  let key_pos := m.regs.getD x 0
  match m.keys.get? key_pos with
  | none => none
  | some true => some m
  | some false => some { m with pc := (m.pc + 2) % 65536 }

/-- The inner bit loop of Emu::display (for i in 0..8). The first
argument is the remaining fuel (8 - bit); the loop always exits through
the break at bit = 7, so the fuel never runs out. After drawing a bit
the source increments x and breaks the row when x == 63 or i == 7,
restoring x to the row start and moving to the next row. -/
def drawBits : Nat → Nat → List Bool → Nat → Nat → Nat → Nat →
    Option (List Bool × Nat × Nat × Nat)
  | 0, _, pixels, vf, x, y, _ => some (pixels, vf, x, y)
  | fuel + 1, bit, pixels, vf, x, y, sb =>
    let step : Option (List Bool × Nat) :=
      if sb &&& 0x80 ≠ 0 then
        match pixels.get? (x + y * 64) with
        | none => none
        | some true => some (pixels.set (x + y * 64) false, 1)
        | some false => some (pixels.set (x + y * 64) true, vf)
      else some (pixels, vf)
    match step with
    | none => none
    | some (pixels1, vf1) =>
      if x + 1 = 63 ∨ bit = 7 then
        some (pixels1, vf1, x + 1 - (bit + 1), y + 1)
      else
        drawBits fuel (bit + 1) pixels1 vf1 (x + 1) y ((sb <<< 1) % 256)

/-- The outer row loop of Emu::display (for byte_index in 0..n). The
sprite byte is read from memory BEFORE the break test y == 31, exactly
as in the source. -/
def drawRows : Nat → Nat → List Bool → Nat → Nat → Nat → List Nat → Nat →
    Option (List Bool × Nat)
  | 0, _, pixels, vf, _, _, _, _ => some (pixels, vf)
  | fuel + 1, byte_index, pixels, vf, x, y, mem, i0 =>
    match mem.get? (i0 + byte_index) with
    | none => none
    | some sb =>
      if y = 31 then some (pixels, vf)
      else
        match drawBits 8 0 pixels vf x y sb with
        | none => none
        | some (pixels1, vf1, x1, y1) => drawRows fuel (byte_index + 1) pixels1 vf1 x1 y1 mem i0

/-- DXYN (Emu::display): the starting position is the register values
masked with 63 and 31; the flag register is reset to 0 at the start (the
0 fed to drawRows as the initial collision flag) and receives the final
collision flag. -/
def display (m : Emu) (x y n : Nat) : Option Emu :=
  let x0 := m.regs.getD x 0 &&& 63
  let y0 := m.regs.getD y 0 &&& 31
  match drawRows n 0 m.pixels 0 x0 y0 m.memory m.i with
  | none => none
  | some (pixels, vf) =>
    some { m with pixels := pixels, regs := m.regs.set 0xf vf }

/-- Abbreviation for a successful instruction result. -/
def ret (m : Emu) : Option (Emu × Except EmulationError Unit) :=
  some (m, Except.ok ())

/-- Abbreviation for an instruction result carrying an error. -/
def failWith (m : Emu) (e : EmulationError) : Option (Emu × Except EmulationError Unit) :=
  some (m, Except.error e)

/-- Emu::decode_and_execute. The Rust match over the first nibble is an
ordered chain of literal tests; the final catch-all arm (reached only by
instruction family 0xF) returns Ok, the UnknownInstruction arm being
commented out in the source. -/
def decode_and_execute (m : Emu) (opcode rnd : Nat) :
    Option (Emu × Except EmulationError Unit) :=
  let f := extract_from_opcode opcode
  let instr_type := f.1
  let x := f.2.1
  let y := f.2.2.1
  let n := f.2.2.2.1
  let nn := f.2.2.2.2.1
  let nnn := f.2.2.2.2.2
  if instr_type = 0x0 then
    if nnn = 0x0e0 then ret (clear_screen m)
    else if nnn = 0x0ee then ret (return_from_subroutine m)
    else if nnn = 0x000 then failWith m EmulationError.VacantMemory
    else failWith m EmulationError.UnknownInstruction
  else if instr_type = 0x1 then ret (jump m nnn)
  else if instr_type = 0x6 then ret (set_register m x nn)
  else if instr_type = 0x7 then ret (add_val_to_register m x nn)
  else if instr_type = 0xa then ret (set_index_register m nnn)
  else if instr_type = 0xd then (display m x y n).map (fun m1 => (m1, Except.ok ()))
  else if instr_type = 0x2 then some (call_subroutine m nnn)
  else if instr_type = 0x3 then ret (skip_if_vx_eq_nn m x nn)
  else if instr_type = 0x4 then ret (skip_if_vx_neq_nn m x nn)
  else if instr_type = 0x5 then ret (skip_if_vx_eq_vy m x y)
  else if instr_type = 0x9 then ret (skip_if_vx_neq_vy m x y)
  else if instr_type = 0x8 then
    if n = 0x0 then ret (set_vx_to_vy m x y)
    else if n = 0x1 then ret (vx_oreq_vy m x y)
    else if n = 0x2 then ret (vx_andeq_vy m x y)
    else if n = 0x3 then ret (vx_xoreq_vy m x y)
    else if n = 0x4 then ret (vx_pluseq_vy m x y)
    else if n = 0x5 then ret (vx_minuseq_vy m x y)
    else if n = 0x7 then ret (vx_equals_vy_minus_vx m x y)
    else if n = 0x6 then ret (shift_right_1bit m x y)
    else if n = 0xe then ret (shift_left_1bit m x y)
    else failWith m EmulationError.UnknownInstruction
  else if instr_type = 0xb then ret (jump_with_offset m nnn)
  else if instr_type = 0xc then ret (random_gen m x nn rnd)
  else if instr_type = 0xe then
    if nn = 0x9e then (skip_if_key m x).map (fun m1 => (m1, Except.ok ()))
    else if nn = 0xa1 then (skip_if_not_key m x).map (fun m1 => (m1, Except.ok ()))
    else failWith m EmulationError.UnknownInstruction
  else ret m

/-- Emu::fetch_decode_execute_instr: fetch then decode-and-execute. -/
def fetch_decode_execute_instr (m : Emu) (rnd : Nat) :
    Option (Emu × Except EmulationError Unit) :=
  match fetch_instruction m with
  | none => none
  | some (m1, opcode) => decode_and_execute m1 opcode rnd

/-- The set of opcodes routed to the UnknownInstruction arm of
decode_and_execute: unmatched sub-opcodes of the handled families
0x0, 0x8 and 0xE. Family 0xF reaches the catch-all Ok arm instead. -/
def unrecognized (opcode : Nat) : Bool :=
  let t := opcode >>> 12
  let n := opcode &&& 0xF
  let nn := opcode &&& 0xFF
  let nnn := opcode &&& 0xFFF
  (t == 0x0 && !(nnn == 0x0e0) && !(nnn == 0x0ee) && !(nnn == 0x000)) ||
  (t == 0x8 && !(n == 0x0) && !(n == 0x1) && !(n == 0x2) && !(n == 0x3) &&
    !(n == 0x4) && !(n == 0x5) && !(n == 0x7) && !(n == 0x6) && !(n == 0xe)) ||
  (t == 0xe && !(nn == 0x9e) && !(nn == 0xa1))

/-! Concrete machine states used by the claim theorems below. -/

/-- A blank machine: zeroed memory with no font table, used as a base
for explicit test states. -/
def blank : Emu :=
  { pixels := List.replicate (64 * 32) false
    the_stack := []
    memory := List.replicate 4096 0
    pc := 0x200
    i := 0
    delay_timer := 0
    sound_timer := 0
    regs := List.replicate 16 0
    keys := List.replicate 16 false }

/-- Machine for C1: sprite row 0x80 at 0x300, draw position (0, 31). -/
def C1m : Emu :=
  { blank with
    memory := (List.replicate 4096 0).set 0x300 0x80
    i := 0x300
    regs := ((List.replicate 16 0).set 0 0).set 1 31 }

/-- Machine for the second C1 conjunct: sprite row 0xFF at 0x300, draw
position (63, 0). -/
def C1m2 : Emu :=
  { blank with
    memory := (List.replicate 4096 0).set 0x300 0xFF
    i := 0x300
    regs := ((List.replicate 16 0).set 0 63).set 1 0 }

/-- Machine for the C3 counterexample: register 0 holds 100 and the flag
register holds 200 at call time. -/
def C3m : Emu :=
  { blank with regs := ((List.replicate 16 0).set 0 100).set 15 200 }

/-- Machine for the C3 witness: registers 0 and 1 hold 200 and 100. -/
def C3wm : Emu :=
  { blank with regs := ((List.replicate 16 0).set 0 200).set 1 100 }

/-- Machine for the C4 counterexample: a full 16-entry call stack and a
2NNN opcode (0x2123) at the program counter. -/
def C4m : Emu :=
  { blank with
    the_stack := List.replicate 16 0
    memory := ((List.replicate 4096 0).set 0x200 0x21).set 0x201 0x23 }

/-- Machine for the C4 witness: a full 16-entry call stack. -/
def C4wm : Emu :=
  { blank with the_stack := List.replicate 16 0 }

/-- Machine for C5: register 0 holds 0x10 (bit 7 clear, bit 4 set). -/
def C5m : Emu :=
  { blank with regs := (List.replicate 16 0).set 0 0x10 }

/-- Machine for C7: register 0 holds 16, one past the last key index. -/
def C7m : Emu :=
  { blank with regs := (List.replicate 16 0).set 0 16 }

/-- Machine for the C8 witness: a call to 0x300 at 0x200 and a 00EE
return instruction at 0x300. -/
def C8m : Emu :=
  { blank with
    memory := (((List.replicate 4096 0).set 0x200 0x23).set 0x300 0x00).set 0x301 0xEE }

/-! List access helper lemmas. -/

/-- Reading back the index just written. -/
theorem getD_set_self (l : List Nat) (i a : Nat) (h : i < l.length) :
    (l.set i a).getD i 0 = a := by
  simp [List.getD_eq_getElem?_getD, List.getElem?_set_self', h]

/-- Writes at other indices do not affect a read. -/
theorem getD_set_other (l : List Nat) (i j a : Nat) (h : i ≠ j) :
    (l.set i a).getD j 0 = l.getD j 0 := by
  simp [List.getD_eq_getElem?_getD, List.getElem?_set_ne h]

/-- The second component of call_subroutine is success or StackOverflow,
never one of the two decode errors. -/
theorem call_subroutine_result (m : Emu) (nnn : Nat) :
    (call_subroutine m nnn).2 = Except.ok () ∨
      (call_subroutine m nnn).2 = Except.error EmulationError.StackOverflow := by
  unfold call_subroutine stack_push
  by_cases h16 : 16 < m.the_stack.length + 1
  · simp [h16]
  · simp [h16]


set_option maxRecDepth 10000 in
/-- C1: the claim states that every 1-bit of the sprite whose target
column lies in 0..63 and target row in 0..31 is XORed into the
framebuffer, with clipping only outside the 64 by 32 grid and no
mid-draw wraparound. The code diverges: it never draws the bottom row
(the row loop breaks when the current row equals 31 BEFORE drawing), and
a sprite whose starting column is 63 runs past the row end into the next
framebuffer row. This theorem evaluates the code at the two failing
inputs: drawing the one-row sprite 0x80 at position (0, 31) changes no
pixel and leaves the flag 0 even though the target pixel is inside the
grid, and drawing the one-row sprite 0xFF at position (63, 0) turns on
the pixel at linear index 64, which is column 0 of ROW 1 (mid-draw
wraparound). -/
theorem C1_display_edge_clipping_bug :
    (display C1m 0 1 1).map (fun m1 => (m1.pixels, m1.regs.getD 0xf 0)) =
        some (C1m.pixels, 0) ∧
    (display C1m2 0 1 1).map (fun m1 => m1.pixels.getD (0 + 1 * 64) false) =
        some true := by
  constructor
  · rfl
  · rfl

/-- C5: the claim states that 8XYE sets the flag register to bit 7 of
the pre-shift value. The code instead tests the whole high nibble
(value AND 0xF0): for register value 0x10 (bit 7 clear, bit 4 set) it
sets the flag to 1 where the claim requires 0. The shifted value stored
in register X (0x20) does agree with the claim. -/
theorem C5_shift_left_flag_bug :
    (decode_and_execute C5m 0x800E 0).map
        (fun p => (p.1.regs.getD 0xf 0, p.1.regs.getD 0 0, p.2)) =
      some (1, 0x20, Except.ok ()) ∧
    C5m.regs.getD 0 0 >>> 7 = 0 := by
  constructor
  · rfl
  · rfl

/-- C7: the claim states that EX9E and EXA1 complete successfully with
no skip when register X holds a value above 15, never indexing the key
state out of bounds. The code indexes the 16-entry key vector with the
raw register value and panics (modelled as none) when it is 16. -/
theorem C7_key_index_panic_bug :
    decode_and_execute C7m 0xE09E 0 = none ∧
    decode_and_execute C7m 0xE0A1 0 = none ∧
    15 < C7m.regs.getD 0 0 := by
  refine ⟨rfl, rfl, by decide⟩

/-- C9: executing 00EE on an empty call stack succeeds, sets the program
counter to the fallback value 0 and leaves the stack empty. -/
theorem C9_return_empty_stack (m : Emu) (rnd : Nat) (h : m.the_stack = []) :
    decode_and_execute m 0x00EE rnd = ret { m with pc := 0 } ∧
    ({ m with pc := 0 } : Emu).the_stack = [] := by
  constructor
  · simp [decode_and_execute, extract_from_opcode, return_from_subroutine, stack_pop, h,
      show ¬((238 : Nat) &&& 4095 = 224) by decide, show ((238 : Nat) &&& 4095 = 238) by decide]
  · simpa using h

/-- Witness for C9 at the freshly constructed machine. -/
theorem C9_return_empty_stack_witness :
    decode_and_execute Emu.new 0x00EE 0 = ret { Emu.new with pc := 0 } ∧
    ({ Emu.new with pc := 0 } : Emu).the_stack = [] :=
  C9_return_empty_stack Emu.new 0 rfl

/-- C10: each timer decrement saturates at zero, subtracts exactly one
from a nonzero timer, and changes no other field of the machine (the
record update form makes both facts explicit with Nat subtraction). -/
theorem C10_timer_saturation (m : Emu) :
    decrement_delay m = { m with delay_timer := m.delay_timer - 1 } ∧
    decrement_sound m = { m with sound_timer := m.sound_timer - 1 } := by
  obtain ⟨p, st, mem, pc0, i0, d, s, r, k⟩ := m
  constructor
  · unfold decrement_delay
    rcases Nat.eq_zero_or_pos d with h | h
    · subst h
      simp
    · simp [h]
  · unfold decrement_sound
    rcases Nat.eq_zero_or_pos s with h | h
    · subst h
      simp
    · simp [h]


/-- C2 counterexample: the opcode 0xF000 has top nibble 0xF and matches
no recognized pattern, yet decode_and_execute returns success (the
catch-all arm of the dispatch is Ok, its UnknownInstruction version
being commented out in the source), contradicting the claim that every
such opcode fails with UnknownInstruction. -/
theorem C2_family_f_ok_counterexample :
    decode_and_execute Emu.new 0xF000 0 = ret Emu.new ∧
    (decode_and_execute Emu.new 0xF000 0).map (fun p => p.2) ≠
      some (Except.error EmulationError.UnknownInstruction) := by
  refine ⟨rfl, ?_⟩
  intro h
  simp [show decode_and_execute Emu.new 0xF000 0 = ret Emu.new from rfl, ret] at h

/-- C3 counterexample: with register 0 holding 100 and the flag register
holding 200 at call time, the unwrapped operand sum 300 exceeds 255, so
the claim demands a final flag of exactly 1 (and register 0 equal to 44)
for X = 0, Y = 0xF. The code clears the flag register before reading the
operands, so the 0xF operand contributes 0: register 0 ends at 100 and
the flag at 0. -/
theorem C3_flag_operand_counterexample :
    255 < C3m.regs.getD 0 0 + C3m.regs.getD 0xf 0 ∧
    (vx_pluseq_vy C3m 0 0xf).regs.getD 0xf 0 = 0 ∧
    (vx_pluseq_vy C3m 0 0xf).regs.getD 0 0 = 100 := by
  refine ⟨by decide, by decide, by decide⟩

set_option maxRecDepth 10000 in
/-- C4 counterexample: starting from a reachable state whose call stack
already holds 16 entries, executing the 2NNN instruction 0x2123 through
the public entry point reports StackOverflow but leaves the pushed 17th
entry on the stack, so the stack holds more than 16 entries after the
operation completes. -/
theorem C4_overflow_leaves_17_entries :
    (fetch_decode_execute_instr C4m 0).map (fun p => (p.1.the_stack.length, p.2)) =
      some (17, Except.error EmulationError.StackOverflow) := by rfl

/-- C3 amended: for register indices X and Y both different from the
flag register 0xF, 8XY4 sets the flag to exactly 1 when the unwrapped
operand sum exceeds 255 and to exactly 0 otherwise, and stores the sum
modulo 256 in register X. (When X or Y is 0xF the flag is cleared before
the operands are read and the claim fails, see the counterexample.) -/
theorem C3_add_carry_flag (m : Emu) (x y : Nat) (hx : x < 15) (hy : y < 15)
    (hlen : m.regs.length = 16) :
    (vx_pluseq_vy m x y).regs.getD 0xf 0 =
      (if 255 < m.regs.getD x 0 + m.regs.getD y 0 then 1 else 0) ∧
    (vx_pluseq_vy m x y).regs.getD x 0 = (m.regs.getD x 0 + m.regs.getD y 0) % 256 := by
  have hx15 : x ≠ 15 := by omega
  have hy15 : y ≠ 15 := by omega
  have hlen1 : (m.regs.set 15 0).length = 16 := by simp [hlen]
  have hgx : (m.regs.set 15 0).getD x 0 = m.regs.getD x 0 :=
    getD_set_other _ _ _ _ (fun hh => hx15 hh.symm)
  have hgy : (m.regs.set 15 0).getD y 0 = m.regs.getD y 0 :=
    getD_set_other _ _ _ _ (fun hh => hy15 hh.symm)
  unfold vx_pluseq_vy
  dsimp only
  rw [hgx, hgy]
  by_cases hc : 256 ≤ m.regs.getD x 0 + m.regs.getD y 0
  · rw [if_pos hc]
    dsimp only
    constructor
    · rw [getD_set_other _ x 15 _ hx15, getD_set_self _ 15 1 (by rw [hlen1]; omega),
        if_pos (by omega)]
    · rw [getD_set_self _ x _ (by rw [List.length_set, hlen1]; omega)]
      have h256 : m.regs.getD x 0 + m.regs.getD y 0 - 256 + 256 =
          m.regs.getD x 0 + m.regs.getD y 0 := by omega
      conv_rhs => rw [← h256]
      rw [Nat.add_mod_right]
  · rw [if_neg hc]
    dsimp only
    constructor
    · rw [getD_set_other _ x 15 _ hx15, getD_set_self _ 15 0 (by rw [hlen]; omega),
        if_neg (by omega)]
    · rw [getD_set_self _ x _ (by rw [hlen1]; omega)]

/-- Witness for C3 at registers 200 and 100: the flag ends at 1 and
register 0 at 44 = 300 mod 256. -/
theorem C3_add_carry_flag_witness :
    (vx_pluseq_vy C3wm 0 1).regs.getD 0xf 0 = 1 ∧
    (vx_pluseq_vy C3wm 0 1).regs.getD 0 0 = 44 := by
  have h := C3_add_carry_flag C3wm 0 1 (by decide) (by decide) (by decide)
  have h1 : C3wm.regs.getD 0 0 + C3wm.regs.getD 1 0 = 300 := by decide
  rw [h1] at h
  simpa using h

/-- C4 amended: from any state whose call stack respects the intended
16-entry bound, 2NNN fails with StackOverflow exactly when the stack
already holds 16 entries before the push; on success the bound is
preserved, but in the failure case the pushed entry remains, so the
stack observably holds 17 entries after the operation completes. -/
theorem C4_stack_bound (m : Emu) (nnn : Nat) (h : m.the_stack.length ≤ 16) :
    ((call_subroutine m nnn).2 = Except.error EmulationError.StackOverflow ↔
      m.the_stack.length = 16) ∧
    (call_subroutine m nnn).1.the_stack.length ≤ 17 ∧
    ((call_subroutine m nnn).2 = Except.ok () →
      (call_subroutine m nnn).1.the_stack.length ≤ 16) ∧
    ((call_subroutine m nnn).2 = Except.error EmulationError.StackOverflow →
      (call_subroutine m nnn).1.the_stack.length = 17) := by
  unfold call_subroutine stack_push
  by_cases h16 : 16 < m.the_stack.length + 1
  · simp [h16]
    omega
  · simp [h16]
    omega

/-- Witness for C4 at a machine with a full 16-entry stack: the call
fails with StackOverflow and leaves 17 entries. -/
theorem C4_stack_bound_witness :
    (call_subroutine C4wm 0x300).2 = Except.error EmulationError.StackOverflow ∧
    (call_subroutine C4wm 0x300).1.the_stack.length = 17 := by
  have h := C4_stack_bound C4wm 0x300 (by decide)
  have h1 : (call_subroutine C4wm 0x300).2 = Except.error EmulationError.StackOverflow :=
    h.1.mpr (by decide)
  exact ⟨h1, h.2.2.2 h1⟩

/-- The result flag of the ROM-copy loop: starting at an address within
memory, the copy succeeds exactly when it fits below address 4096. -/
theorem read_rom_loop_snd (rom : List Nat) : ∀ (addr : Nat) (mem : List Nat),
    addr ≤ 4096 →
    (read_rom_loop rom addr mem).2 =
      if addr + rom.length ≤ 4096 then Except.ok ()
      else Except.error EmulationError.LoadingError := by
  induction rom with
  | nil =>
    intro addr mem h
    simp only [read_rom_loop, List.length_nil, Nat.add_zero]
    rw [if_pos h]
  | cons d rest ih =>
    intro addr mem h
    simp only [read_rom_loop]
    by_cases ha : addr ≥ 4096
    · rw [if_pos ha, if_neg (by simp only [List.length_cons]; omega)]
    · rw [if_neg ha, ih (addr + 1) _ (by omega)]
      by_cases hc : addr + (d :: rest).length ≤ 4096
      · rw [if_pos (by simp only [List.length_cons] at hc; omega), if_pos hc]
      · rw [if_neg (by simp only [List.length_cons] at hc; omega), if_neg hc]

/-- The memory after the ROM-copy loop: address j holds ROM byte j - addr
when j lies in the written window (below 4096), and is untouched
otherwise. -/
theorem read_rom_loop_getD (rom : List Nat) : ∀ (addr : Nat) (mem : List Nat) (j : Nat),
    mem.length = 4096 →
    (read_rom_loop rom addr mem).1.getD j 0 =
      if addr ≤ j ∧ j < addr + rom.length ∧ j < 4096 then rom.getD (j - addr) 0
      else mem.getD j 0 := by
  induction rom with
  | nil =>
    intro addr mem j hm
    simp only [read_rom_loop, List.length_nil, Nat.add_zero]
    rw [if_neg (by omega)]
  | cons d rest ih =>
    intro addr mem j hm
    simp only [read_rom_loop]
    by_cases ha : addr ≥ 4096
    · rw [if_pos ha]
      rw [if_neg (by simp only [List.length_cons]; omega)]
    · rw [if_neg ha]
      rw [ih (addr + 1) (mem.set addr d) j (by simp [hm])]
      by_cases hj : j = addr
      · subst hj
        rw [if_neg (by omega)]
        rw [if_pos ⟨Nat.le_refl _, by simp only [List.length_cons]; omega, by omega⟩]
        rw [Nat.sub_self]
        rw [getD_set_self _ _ _ (by omega)]
        rfl
      · by_cases hcond : addr + 1 ≤ j ∧ j < addr + 1 + rest.length ∧ j < 4096
        · rw [if_pos hcond,
            if_pos ⟨by omega, by simp only [List.length_cons]; omega, hcond.2.2⟩]
          have hsub : j - addr = (j - (addr + 1)) + 1 := by omega
          rw [hsub]
          rfl
        · rw [if_neg hcond, getD_set_other _ _ _ _ (fun hh => hj hh.symm),
            if_neg (by simp only [List.length_cons]; omega)]

/-- The font fold preserves the memory length. -/
theorem font_foldl_length (l : List Nat) : ∀ (mem : List Nat),
    (l.foldl (fun mem k => mem.set (0x50 + k) (fonts.getD k 0)) mem).length =
      mem.length := by
  induction l with
  | nil => intro mem; rfl
  | cons b l ih =>
    intro mem
    simp only [List.foldl_cons]
    rw [ih, List.length_set]

/-- The font fold leaves every address it does not write untouched. -/
theorem font_foldl_getD (l : List Nat) : ∀ (mem : List Nat) (a : Nat),
    (∀ k ∈ l, 0x50 + k ≠ a) →
    (l.foldl (fun mem k => mem.set (0x50 + k) (fonts.getD k 0)) mem).getD a 0 =
      mem.getD a 0 := by
  induction l with
  | nil => intro mem a _; rfl
  | cons b l ih =>
    intro mem a h
    simp only [List.foldl_cons]
    rw [ih _ _ (fun k hk => h k (List.mem_cons_of_mem _ hk))]
    exact getD_set_other _ _ _ _ (h b (List.mem_cons_self _ _))

/-- Reading a list of zeros yields zero at every index. -/
theorem getD_replicate_zero (n j : Nat) : (List.replicate n (0 : Nat)).getD j 0 = 0 := by
  simp only [List.getD_eq_getElem?_getD, List.getElem?_replicate]
  split <;> rfl

/-- The fresh machine memory has length 4096. -/
theorem new_memory_length : Emu.new.memory.length = 4096 := by
  rw [show Emu.new.memory = (List.range 79).foldl
      (fun mem k => mem.set (0x50 + k) (fonts.getD k 0)) (List.replicate 4096 0) from rfl]
  rw [font_foldl_length]
  exact List.length_replicate 4096 0

/-- Every fresh-machine memory address at or above 0x9F (in particular
the whole program region from 0x200 up) holds zero. -/
theorem new_memory_getD_high (a : Nat) (h : 0x9F ≤ a) : Emu.new.memory.getD a 0 = 0 := by
  rw [show Emu.new.memory = (List.range 79).foldl
      (fun mem k => mem.set (0x50 + k) (fonts.getD k 0)) (List.replicate 4096 0) from rfl]
  rw [font_foldl_getD]
  · exact getD_replicate_zero 4096 a
  · intro k hk
    have := List.mem_range.mp hk
    omega

set_option maxRecDepth 10000 in
/-- C6: loading a ROM of length at most 3584 into a fresh machine
succeeds and copies byte k to address 0x200 + k; a longer ROM fails with
LoadingError; and every address the load did not reach keeps its
construction-time state, which is zero throughout the loadable region at
and above 0x200. -/
theorem C6_read_rom_loading (rom : List Nat) :
    ((read_rom Emu.new rom).2 =
      if rom.length ≤ 3584 then Except.ok ()
      else Except.error EmulationError.LoadingError) ∧
    (∀ k, k < rom.length → k < 3584 →
      (read_rom Emu.new rom).1.memory.getD (0x200 + k) 0 = rom.getD k 0) ∧
    (∀ a, 0x200 + rom.length ≤ a → (read_rom Emu.new rom).1.memory.getD a 0 = 0) ∧
    (∀ a, a < 0x200 → (read_rom Emu.new rom).1.memory.getD a 0 = Emu.new.memory.getD a 0) := by
  refine ⟨?_, ?_, ?_, ?_⟩
  · show (read_rom_loop rom 0x200 Emu.new.memory).2 = _
    rw [read_rom_loop_snd rom 0x200 _ (by omega)]
    by_cases hc : rom.length ≤ 3584
    · rw [if_pos (by omega), if_pos hc]
    · rw [if_neg (by omega), if_neg hc]
  · intro k hk1 hk2
    show (read_rom_loop rom 0x200 Emu.new.memory).1.getD (0x200 + k) 0 = _
    rw [read_rom_loop_getD rom 0x200 _ _ new_memory_length,
      if_pos ⟨by omega, by omega, by omega⟩]
    congr 1
    omega
  · intro a ha
    show (read_rom_loop rom 0x200 Emu.new.memory).1.getD a 0 = 0
    rw [read_rom_loop_getD rom 0x200 _ _ new_memory_length, if_neg (by omega)]
    rcases Nat.lt_or_ge a 0x200 with h2 | h2
    · exact absurd ha (by omega)
    · exact new_memory_getD_high a (by omega)
  · intro a ha
    show (read_rom_loop rom 0x200 Emu.new.memory).1.getD a 0 = _
    rw [read_rom_loop_getD rom 0x200 _ _ new_memory_length, if_neg (by omega)]

/-- Witness for C6: loading the one-byte ROM 0xAB succeeds, address
0x200 holds 0xAB, and the unreached address 0x300 holds zero. -/
theorem C6_read_rom_loading_witness :
    (read_rom Emu.new [0xAB]).2 = Except.ok () ∧
    (read_rom Emu.new [0xAB]).1.memory.getD 0x200 0 = 0xAB ∧
    (read_rom Emu.new [0xAB]).1.memory.getD 0x300 0 = 0 := by
  have h := C6_read_rom_loading [0xAB]
  refine ⟨by simpa using h.1, ?_, ?_⟩
  · have h2 := h.2.1 0 (by decide) (by decide)
    simpa using h2
  · exact h.2.2.1 0x300 (by simp)

/-- C8: from any state with fewer than 16 stack entries whose memory
holds a 2NNN opcode at the program counter and a 00EE opcode at NNN,
executing the call and then the return through the public entry point
succeeds, restores the program counter to the value it held immediately
after the 2NNN fetch (the address of the instruction following the
call), and leaves the call stack at its original depth. -/
theorem C8_call_then_return (m : Emu) (nnn rnd1 rnd2 : Nat)
    (hstack : m.the_stack.length < 16)
    (hnnn : nnn < 4095)
    (hpc : m.pc + 1 < 65536)
    (h1 : m.memory.get? m.pc = some (0x20 + nnn / 256))
    (h2 : m.memory.get? (m.pc + 1) = some (nnn % 256))
    (h3 : m.memory.get? nnn = some 0x00)
    (h4 : m.memory.get? (nnn + 1) = some 0xEE) :
    ∃ m1 m2,
      fetch_decode_execute_instr m rnd1 = some (m1, Except.ok ()) ∧
      fetch_decode_execute_instr m1 rnd2 = some (m2, Except.ok ()) ∧
      m2.pc = (m.pc + 1 + 1) % 65536 ∧
      m2.the_stack = m.the_stack := by
  have hmod1 : (m.pc + 1) % 65536 = m.pc + 1 := Nat.mod_eq_of_lt hpc
  have hmod2 : (nnn + 1) % 65536 = nnn + 1 := Nat.mod_eq_of_lt (by omega)
  refine ⟨{ m with pc := nnn, the_stack := m.the_stack ++ [(m.pc + 1 + 1) % 65536] },
    { m with pc := (m.pc + 1 + 1) % 65536 }, ?_, ?_, rfl, rfl⟩
  · unfold fetch_decode_execute_instr
    have hfetch1 : fetch_instruction m =
        some ({ m with pc := (m.pc + 1 + 1) % 65536 },
          (0x20 + nnn / 256) * 256 + nnn % 256) := by
      simp only [fetch_instruction, h1, hmod1, h2]
    rw [hfetch1]
    show decode_and_execute { m with pc := (m.pc + 1 + 1) % 65536 }
        ((0x20 + nnn / 256) * 256 + nnn % 256) rnd1 = _
    have hop : (0x20 + nnn / 256) * 256 + nnn % 256 = 0x2000 + nnn := by omega
    rw [hop]
    have e1 : (0x2000 + nnn) >>> 12 = 2 := by
      rw [Nat.shiftRight_eq_div_pow]
      omega
    have e2 : (0x2000 + nnn) &&& 0xFFF = nnn := by
      rw [Nat.and_pow_two_sub_one_eq_mod (0x2000 + nnn) 12]
      omega
    have hlen : ¬ (16 < m.the_stack.length + 1) := by omega
    simp only [decode_and_execute, extract_from_opcode, e1, e2]
    norm_num [call_subroutine, stack_push, hlen]
  · unfold fetch_decode_execute_instr
    have hfetch2 : fetch_instruction
        { m with pc := nnn, the_stack := m.the_stack ++ [(m.pc + 1 + 1) % 65536] } =
        some ({ m with
          pc := (nnn + 1 + 1) % 65536,
          the_stack := m.the_stack ++ [(m.pc + 1 + 1) % 65536] }, 0 * 256 + 0xEE) := by
      simp only [fetch_instruction, h3, hmod2, h4]
    rw [hfetch2]
    show decode_and_execute { m with
        pc := (nnn + 1 + 1) % 65536,
        the_stack := m.the_stack ++ [(m.pc + 1 + 1) % 65536] } (0 * 256 + 0xEE) rnd2 = _
    have e3 : (0 * 256 + 0xEE : Nat) >>> 12 = 0 := by decide
    have e4 : (0 * 256 + 0xEE : Nat) &&& 0xFFF = 0xEE := by decide
    simp only [decode_and_execute, extract_from_opcode, e3, e4]
    norm_num [return_from_subroutine, stack_pop, ret,
      List.getLast?_concat, List.dropLast_concat]

set_option maxRecDepth 40000 in
/-- Witness for C8 on a concrete machine: a call 0x2300 at 0x200 and a
00EE return at 0x300. -/
theorem C8_call_then_return_witness :
    ∃ m1 m2,
      fetch_decode_execute_instr C8m 0 = some (m1, Except.ok ()) ∧
      fetch_decode_execute_instr m1 0 = some (m2, Except.ok ()) ∧
      m2.pc = (C8m.pc + 1 + 1) % 65536 ∧
      m2.the_stack = C8m.the_stack :=
  C8_call_then_return C8m 0x300 0 0 (by decide) (by decide) (by decide)
    (by rfl) (by rfl) (by rfl) (by rfl)

/-- A successful or overflowing call never yields the two decode errors:
helper for the C2 classification. -/
theorem some_call_eq_err_iff (m : Emu) (nnn : Nat) (m2 : Emu) (e : EmulationError)
    (he : ¬ e = EmulationError.StackOverflow) :
    (some (call_subroutine m nnn) = some (m2, Except.error e)) ↔ False := by
  simp only [Option.some.injEq, iff_false]
  intro heq
  have hres := call_subroutine_result m nnn
  rw [heq] at hres
  simp at hres
  exact he hres

/-- A success result never equals an error result. -/
theorem ret_eq_fail_iff (m0 m2 : Emu) (e : EmulationError) :
    (ret m0 = failWith m2 e) ↔ False := by
  simp [ret, failWith]

/-- Two error results agree exactly on state and error kind. -/
theorem fail_eq_fail_iff (m0 m2 : Emu) (e1 e2 : EmulationError) :
    (failWith m0 e1 = failWith m2 e2) ↔ (m0 = m2 ∧ e1 = e2) := by
  simp [failWith]

/-- A mapped-success option result never equals an error result. -/
theorem map_ok_eq_fail_iff (o : Option Emu) (m2 : Emu) (e : EmulationError) :
    (o.map (fun m1 => (m1, Except.ok ())) = failWith m2 e) ↔ False := by
  cases o <;> simp [failWith]

/-- A call result is never the VacantMemory error. -/
theorem some_call_ne_vacant (m : Emu) (nnn : Nat) (m2 : Emu) :
    (some (call_subroutine m nnn) = failWith m2 EmulationError.VacantMemory) ↔ False :=
  some_call_eq_err_iff m nnn m2 EmulationError.VacantMemory (by simp)

/-- A call result is never the UnknownInstruction error. -/
theorem some_call_ne_unknown (m : Emu) (nnn : Nat) (m2 : Emu) :
    (some (call_subroutine m nnn) = failWith m2 EmulationError.UnknownInstruction) ↔ False :=
  some_call_eq_err_iff m nnn m2 EmulationError.UnknownInstruction (by simp)

/-- The unrecognized-opcode test, written with division and remainder by
powers of two. -/
theorem unrecognized_iff (opcode : Nat) : unrecognized opcode = true ↔
    ((opcode / 4096 = 0 ∧ ¬ opcode % 4096 = 224 ∧ ¬ opcode % 4096 = 238 ∧
        ¬ opcode % 4096 = 0) ∨
      (opcode / 4096 = 8 ∧ ¬ opcode % 16 = 0 ∧ ¬ opcode % 16 = 1 ∧ ¬ opcode % 16 = 2 ∧
        ¬ opcode % 16 = 3 ∧ ¬ opcode % 16 = 4 ∧ ¬ opcode % 16 = 5 ∧ ¬ opcode % 16 = 7 ∧
        ¬ opcode % 16 = 6 ∧ ¬ opcode % 16 = 14) ∨
      (opcode / 4096 = 14 ∧ ¬ opcode % 256 = 158 ∧ ¬ opcode % 256 = 161)) := by
  have hdiv : opcode >>> 12 = opcode / 4096 := Nat.shiftRight_eq_div_pow opcode 12
  have hmod : opcode &&& 4095 = opcode % 4096 := Nat.and_pow_two_sub_one_eq_mod opcode 12
  have hmodF : opcode &&& 15 = opcode % 16 := Nat.and_pow_two_sub_one_eq_mod opcode 4
  have hmodFF : opcode &&& 255 = opcode % 256 := Nat.and_pow_two_sub_one_eq_mod opcode 8
  simp only [unrecognized, hdiv, hmod, hmodF, hmodFF]
  simp
  omega

/-- The error component of a dispatch result. -/
def resSnd (o : Option (Emu × Except EmulationError Unit)) :
    Option (Except EmulationError Unit) :=
  o.map (fun p => p.2)

/-- An error result is characterized by its error component. -/
theorem exists_fail_iff (o : Option (Emu × Except EmulationError Unit)) (e : EmulationError) :
    (∃ m2, o = failWith m2 e) ↔ resSnd o = some (Except.error e) := by
  cases o with
  | none => simp [resSnd, failWith]
  | some p =>
    obtain ⟨a, b⟩ := p
    simp [resSnd, failWith]

/-- resSnd of a success result. -/
theorem resSnd_ret (m0 : Emu) : resSnd (ret m0) = some (Except.ok ()) := rfl

/-- resSnd of an error result. -/
theorem resSnd_fail (m0 : Emu) (e : EmulationError) :
    resSnd (failWith m0 e) = some (Except.error e) := rfl

/-- resSnd of a plain pair result. -/
theorem resSnd_some (p : Emu × Except EmulationError Unit) : resSnd (some p) = some p.2 := rfl

/-- resSnd of an Ok-mapped option result. -/
theorem resSnd_map_ok (o : Option Emu) :
    resSnd (o.map (fun m1 => (m1, Except.ok ()))) = o.map (fun _ => Except.ok ()) := by
  cases o <;> rfl

/-- An Ok-mapped option is never an error. -/
theorem mapok_ne_err (o : Option Emu) (e : EmulationError) :
    (o.map (fun _ => Except.ok ()) = some (Except.error e)) ↔ False := by
  cases o <;> simp

/-- A call result component is never VacantMemory. -/
theorem callsnd_ne_vacant (m : Emu) (nnn : Nat) :
    (some (call_subroutine m nnn).2 =
      some (Except.error EmulationError.VacantMemory)) ↔ False := by
  rcases call_subroutine_result m nnn with h | h <;> rw [h] <;> simp

/-- A call result component is never UnknownInstruction. -/
theorem callsnd_ne_unknown (m : Emu) (nnn : Nat) :
    (some (call_subroutine m nnn).2 =
      some (Except.error EmulationError.UnknownInstruction)) ↔ False := by
  rcases call_subroutine_result m nnn with h | h <;> rw [h] <;> simp

set_option maxHeartbeats 1000000 in
/-- C2 amended: one dispatch fails with VacantMemory exactly on opcode
0x0000, fails with UnknownInstruction exactly on the unmatched
sub-opcodes of the handled families 0x0, 0x8 and 0xE, and every opcode
whose top nibble is 0xF returns success unchanged (the dispatch
catch-all is Ok, not UnknownInstruction as the claim states). -/
theorem C2_error_classification (m : Emu) (opcode rnd : Nat) :
    ((∃ m2, decode_and_execute m opcode rnd = failWith m2 EmulationError.VacantMemory) ↔
      opcode = 0) ∧
    ((∃ m2, decode_and_execute m opcode rnd = failWith m2 EmulationError.UnknownInstruction) ↔
      unrecognized opcode = true) ∧
    (opcode >>> 12 = 0xF → decode_and_execute m opcode rnd = ret m) := by
  have hdiv : opcode >>> 12 = opcode / 4096 := Nat.shiftRight_eq_div_pow opcode 12
  have hmod : opcode &&& 4095 = opcode % 4096 := Nat.and_pow_two_sub_one_eq_mod opcode 12
  have hmodF : opcode &&& 15 = opcode % 16 := Nat.and_pow_two_sub_one_eq_mod opcode 4
  have hmodFF : opcode &&& 255 = opcode % 256 := Nat.and_pow_two_sub_one_eq_mod opcode 8
  rw [exists_fail_iff, exists_fail_iff, unrecognized_iff]
  simp only [decode_and_execute, extract_from_opcode, hdiv, hmod, hmodF, hmodFF]
  simp only [apply_ite resSnd, resSnd_ret, resSnd_fail, resSnd_some, resSnd_map_ok]
  generalize ht : opcode / 4096 = t
  rcases Nat.lt_or_ge t 16 with h16 | h16
  · interval_cases t
    · -- family 0x0
      by_cases he0 : opcode % 4096 = 224
      · simp [he0]
        omega
      · by_cases hee : opcode % 4096 = 238
        · simp [he0, hee]
          omega
        · by_cases h00 : opcode % 4096 = 0
          · simp [he0, hee, h00]
            omega
          · simp [he0, hee, h00]
            omega
    · simp
      omega
    · -- family 0x2
      rcases call_subroutine_result m (opcode % 4096) with hc | hc <;> rw [hc] <;> simp <;>
        omega
    · simp
      omega
    · simp
      omega
    · simp
      omega
    · simp
      omega
    · simp
      omega
    · -- family 0x8
      generalize hn : opcode % 16 = nv
      have hnb : nv < 16 := by omega
      interval_cases nv <;> simp <;> omega
    · simp
      omega
    · simp
      omega
    · simp
      omega
    · simp
      omega
    · -- family 0xD
      simp
      omega
    · -- family 0xE
      by_cases h9e : opcode % 256 = 158
      · simp [h9e]
        omega
      · by_cases ha1 : opcode % 256 = 161
        · simp [h9e, ha1]
          omega
        · simp [h9e, ha1]
          omega
    · simp
      omega
  · have hn0 : ¬ t = 0 := by omega
    have hn1 : ¬ t = 1 := by omega
    have hn2 : ¬ t = 2 := by omega
    have hn3 : ¬ t = 3 := by omega
    have hn4 : ¬ t = 4 := by omega
    have hn5 : ¬ t = 5 := by omega
    have hn6 : ¬ t = 6 := by omega
    have hn7 : ¬ t = 7 := by omega
    have hn8 : ¬ t = 8 := by omega
    have hn9 : ¬ t = 9 := by omega
    have hn10 : ¬ t = 10 := by omega
    have hn11 : ¬ t = 11 := by omega
    have hn12 : ¬ t = 12 := by omega
    have hn13 : ¬ t = 13 := by omega
    have hn14 : ¬ t = 14 := by omega
    have hn15 : ¬ t = 15 := by omega
    simp [hn0, hn1, hn2, hn3, hn4, hn5, hn6, hn7, hn8, hn9, hn10, hn11, hn12,
      hn13, hn14, hn15]
    omega

/-- Witness for C2: opcode 0x0000 yields VacantMemory, the unmatched
family-8 sub-opcode 0x8008 yields UnknownInstruction, and the family-F
opcode 0xF123 returns success unchanged. -/
theorem C2_error_classification_witness :
    (∃ m2, decode_and_execute Emu.new 0 0 = failWith m2 EmulationError.VacantMemory) ∧
    (∃ m2, decode_and_execute Emu.new 0x8008 0 = failWith m2 EmulationError.UnknownInstruction) ∧
    decode_and_execute Emu.new 0xF123 0 = ret Emu.new :=
  ⟨(C2_error_classification Emu.new 0 0).1.mpr rfl,
    (C2_error_classification Emu.new 0x8008 0).2.1.mpr (by decide),
    (C2_error_classification Emu.new 0xF123 0).2.2 (by decide)⟩

end RiteEmu
